import Mathlib

/-!
Shallow embedding of the Nexus physics-sandbox repository (Babylon.js / Havok
orchestration code).  The modules embedded here are:

* `src/src/modules/physics/CutTheRopeGame.ts` — rope assembly (`createRope`,
  `createRopeJoint`), pointer interaction (`setupInteraction`, `cutRope`,
  `popBubble`), and the per-frame game loop (`setupGameLoop`,
  `applyAirBlowerForces`, `applyBubbleForces`, `checkStarCollection`,
  `collectStar`, `checkWinCondition`, `winGame`);
* `src/src/modules/physics/PhysicsModule.ts` — the wrecking-ball pendulum
  (`createPendulum`, `createJoint`) and its pointer interaction;
* `src/src/modules/physics/Vehicle.ts` — `Vehicle.build` / `createWheel`.

Scalars are modelled as real numbers (the source uses JS doubles; we verify the
ideal-arithmetic behaviour).  Calls into the external physics engine that only
*record* structure (constraint creation, force application) are modelled as
data: a constraint call becomes a record of its parameters, and
`body.applyForce(f, p)` becomes an emitted `ForceEvent`.  Purely visual calls
(materials, particles, animations, haptics) have no observable effect on the
claims and are not modelled.
-/

namespace Nexus

noncomputable section

/-- Babylon `Vector3`, over ideal real scalars. -/
structure Vec3 where
  x : ℝ
  y : ℝ
  z : ℝ

namespace Vec3

/-- Babylon `Vector3.add`. -/
def add (a b : Vec3) : Vec3 := ⟨a.x + b.x, a.y + b.y, a.z + b.z⟩

/-- Babylon `Vector3.subtract`. -/
def sub (a b : Vec3) : Vec3 := ⟨a.x - b.x, a.y - b.y, a.z - b.z⟩

instance : Add Vec3 := ⟨add⟩
instance : Sub Vec3 := ⟨sub⟩

/-- Babylon `Vector3.scale`. -/
def scale (v : Vec3) (s : ℝ) : Vec3 := ⟨v.x * s, v.y * s, v.z * s⟩

/-- Babylon `Vector3.length`. -/
def length (v : Vec3) : ℝ := Real.sqrt (v.x ^ 2 + v.y ^ 2 + v.z ^ 2)

/-- Babylon `Vector3.Distance`. -/
def Distance (a b : Vec3) : ℝ := (b - a).length

/-- Babylon `Vector3.normalize` (division by zero in Lean yields the zero vector,
matching Babylon's convention that a zero-length vector stays zero). -/
def normalize (v : Vec3) : Vec3 := v.scale v.length⁻¹

/-- Babylon `Vector3.Zero()`. -/
def zero : Vec3 := ⟨0, 0, 0⟩

/-- Babylon `Axis.X`. -/
def axisX : Vec3 := ⟨1, 0, 0⟩

/-- Babylon `Axis.Y`. -/
def axisY : Vec3 := ⟨0, 1, 0⟩

end Vec3

/-- Babylon `PhysicsConstraintAxis` members used by this repository. -/
inductive ConstraintAxis where
  | LINEAR_X
  | LINEAR_Y
  | LINEAR_Z
  | ANGULAR_X
  | ANGULAR_Y
  | ANGULAR_Z
deriving DecidableEq, Repr

/-- One element of the limits array passed to `Physics6DoFConstraint`. -/
structure AxisLimit where
  axis : ConstraintAxis
  minLimit : ℝ
  maxLimit : ℝ

/-- A call to `body.applyForce(force, point)` on the candy's physics body,
recorded as an event (the actual integration is performed by Havok). -/
structure ForceEvent where
  force : Vec3
  point : Vec3

/-! ## CutTheRopeGame: rope assembly -/

/-- The physics bodies taking part in one rope of `CutTheRopeGame.createRope`:
the static anchor aggregate, the numbered segment aggregates, and the candy
aggregate. -/
inductive RopeBody where
  | anchor
  | seg (i : ℕ)
  | candy
deriving DecidableEq, Repr

/-- A `Physics6DoFConstraint` built by `CutTheRopeGame.createRopeJoint`,
together with the direction of attachment (`aggA.body.addConstraint(aggB.body,
joint)` — `bodyA` is the receiver, `bodyB` the argument). -/
structure RopeJoint where
  bodyA : RopeBody
  bodyB : RopeBody
  pivotA : Vec3
  pivotB : Vec3
  axisA : Vec3
  axisB : Vec3
  perpAxisA : Vec3
  perpAxisB : Vec3
  limits : List AxisLimit

/-- Source `CutTheRopeGame.createRopeJoint(aggA, aggB, distance)`: a 6-DoF constraint
with pivots `(0, ∓distance/2, 0)`, main axes `Axis.Y`, perpendicular axes
`Axis.X`, and the three linear axes limited to `[-0.1, 0.1]`; the constraint is
added from `aggA`'s body to `aggB`'s body. -/
def createRopeJoint (aggA aggB : RopeBody) (distance : ℝ) : RopeJoint :=
  { bodyA := aggA
    bodyB := aggB
    pivotA := ⟨0, -distance / 2, 0⟩
    pivotB := ⟨0, distance / 2, 0⟩
    axisA := Vec3.axisY
    axisB := Vec3.axisY
    perpAxisA := Vec3.axisX
    perpAxisB := Vec3.axisX
    limits :=
      [ ⟨.LINEAR_X, -0.1, 0.1⟩,
        ⟨.LINEAR_Y, -0.1, 0.1⟩,
        ⟨.LINEAR_Z, -0.1, 0.1⟩ ] }

/-- A rope segment as created in the `createRope` loop: its mesh position and
the mass of its `PhysicsAggregate`. -/
structure RopeSegmentM where
  pos : Vec3
  mass : ℝ

/-- The body the loop variable `previousAggregate` points to after `j` segments
have been chained, starting from `prev` at segment index `i`. -/
def chainRef (prev : RopeBody) (i : ℕ) : ℕ → RopeBody
  | 0 => prev
  | j + 1 => .seg (i + j)

/-- The `for (let i = 0; i < segmentCount; i++)` loop body of
`CutTheRopeGame.createRope`, building segments `i, i+1, …` (`k` iterations
remaining) with `prev` as the current `previousAggregate`.  Returns the
segments, the joints created by `createRopeJoint(previous, segment,
segmentLength)`, and the final value of `previousAggregate`. -/
def ropeLoop (anchorPos direction : Vec3) (segmentLength : ℝ) :
    ℕ → ℕ → RopeBody → List RopeSegmentM × List RopeJoint × RopeBody
  | _, 0, prev => ([], [], prev)
  | i, k + 1, prev =>
      let segPos := anchorPos + direction.scale (((i : ℝ) + 1) * segmentLength)
      let rest := ropeLoop anchorPos direction segmentLength (i + 1) k (.seg i)
      (⟨segPos, 0.5⟩ :: rest.1,
       createRopeJoint prev (.seg i) segmentLength :: rest.2.1,
       rest.2.2)

/-- Result of `CutTheRopeGame.createRope`: the anchor aggregate's mass, the
rope segments, and every joint created (in creation order). -/
structure RopeResult where
  anchorMass : ℝ
  segments : List RopeSegmentM
  joints : List RopeJoint

/-- Source `CutTheRopeGame.createRope(anchorPos, targetMesh, segmentCount)` with the
candy as target: static anchor (mass 0), direction and total length from the
anchor towards the candy, `segmentCount` chained segments, and a final joint
from the last segment to the candy aggregate. -/
def createRope (anchorPos candyPos : Vec3) (segmentCount : ℕ) : RopeResult :=
  let direction := (candyPos - anchorPos).normalize
  let totalLength := Vec3.Distance anchorPos candyPos
  let segmentLength := totalLength / (segmentCount : ℝ)
  let loop := ropeLoop anchorPos direction segmentLength 0 segmentCount .anchor
  { anchorMass := 0
    segments := loop.1
    joints := loop.2.1 ++ [createRopeJoint loop.2.2 .candy segmentLength] }

/-! ### Closed forms for the rope loop -/

theorem chainRef_succ_shift (prev : RopeBody) (i j : ℕ) :
    chainRef (.seg i) (i + 1) j = chainRef prev i (j + 1) := by
  cases j with
  | zero => simp [chainRef]
  | succ j => simp only [chainRef]; congr 1; omega

theorem ropeLoop_segments (anchorPos direction : Vec3) (L : ℝ) :
    ∀ (k i : ℕ) (prev : RopeBody),
      (ropeLoop anchorPos direction L i k prev).1 =
        (List.range k).map
          (fun j => ⟨anchorPos + direction.scale ((((i + j : ℕ) : ℝ) + 1) * L), 0.5⟩) := by
  intro k
  induction k with
  | zero => intro i prev; simp [ropeLoop]
  | succ k ih =>
      intro i prev
      simp only [ropeLoop, ih (i + 1), List.range_succ_eq_map, List.map_cons,
        List.map_map]
      rw [List.cons.injEq]
      refine ⟨rfl, ?_⟩
      apply List.map_congr_left
      intro j _
      simp only [Function.comp, Nat.succ_eq_add_one]
      rw [show i + 1 + j = i + (j + 1) by omega]

theorem ropeLoop_joints (anchorPos direction : Vec3) (L : ℝ) :
    ∀ (k i : ℕ) (prev : RopeBody),
      (ropeLoop anchorPos direction L i k prev).2.1 =
        (List.range k).map
          (fun j => createRopeJoint (chainRef prev i j) (.seg (i + j)) L) := by
  intro k
  induction k with
  | zero => intro i prev; simp [ropeLoop]
  | succ k ih =>
      intro i prev
      simp only [ropeLoop, ih (i + 1), List.range_succ_eq_map, List.map_cons,
        List.map_map]
      rw [List.cons.injEq]
      refine ⟨by simp [chainRef], ?_⟩
      apply List.map_congr_left
      intro j _
      simp only [Function.comp, Nat.succ_eq_add_one]
      rw [chainRef_succ_shift prev, show i + 1 + j = i + (j + 1) by omega]

theorem ropeLoop_lastRef (anchorPos direction : Vec3) (L : ℝ) :
    ∀ (k i : ℕ) (prev : RopeBody),
      (ropeLoop anchorPos direction L i k prev).2.2 = chainRef prev i k := by
  intro k
  induction k with
  | zero => intro i prev; simp [ropeLoop, chainRef]
  | succ k ih =>
      intro i prev
      simp only [ropeLoop, ih (i + 1)]
      exact chainRef_succ_shift prev i k

/-- C2: for every call `createRope(anchorPos, target, N)` with `N ≥ 1`, exactly
`N` rope segments are created, segment `i` centered at
`anchorPos + (i+1)*(d/N)*u` with `d` the distance from the anchor to the
candy's position and `u` the unit vector from anchor toward the candy, and
exactly `N+1` joints are created linking consecutive bodies in order: the
static anchor (mass 0) to segment 0, each segment `i` to segment `i+1`, and
segment `N-1` to the candy. -/
theorem createRope_chain (anchorPos candyPos : Vec3) (n : ℕ) (hn : 1 ≤ n) :
    (createRope anchorPos candyPos n).segments.length = n ∧
    (createRope anchorPos candyPos n).segments =
      (List.range n).map
        (fun i =>
          ⟨anchorPos + ((candyPos - anchorPos).normalize).scale
              (((i : ℝ) + 1) * (Vec3.Distance anchorPos candyPos / (n : ℝ))),
           0.5⟩) ∧
    (createRope anchorPos candyPos n).joints.length = n + 1 ∧
    (createRope anchorPos candyPos n).joints =
      createRopeJoint .anchor (.seg 0)
          (Vec3.Distance anchorPos candyPos / (n : ℝ)) ::
        (((List.range (n - 1)).map
            (fun i => createRopeJoint (.seg i) (.seg (i + 1))
              (Vec3.Distance anchorPos candyPos / (n : ℝ)))) ++
          [createRopeJoint (.seg (n - 1)) .candy
            (Vec3.Distance anchorPos candyPos / (n : ℝ))]) ∧
    (createRope anchorPos candyPos n).anchorMass = 0 := by
  obtain ⟨m, rfl⟩ : ∃ m, n = m + 1 := ⟨n - 1, by omega⟩
  have hseg : (createRope anchorPos candyPos (m + 1)).segments =
      (List.range (m + 1)).map
        (fun i =>
          ⟨anchorPos + ((candyPos - anchorPos).normalize).scale
              (((i : ℝ) + 1) *
                (Vec3.Distance anchorPos candyPos / ((m + 1 : ℕ) : ℝ))),
           0.5⟩) := by
    simp only [createRope, ropeLoop_segments]
    apply List.map_congr_left
    intro j _
    simp
  have hjoint : (createRope anchorPos candyPos (m + 1)).joints =
      createRopeJoint .anchor (.seg 0)
          (Vec3.Distance anchorPos candyPos / ((m + 1 : ℕ) : ℝ)) ::
        (((List.range (m + 1 - 1)).map
            (fun i => createRopeJoint (.seg i) (.seg (i + 1))
              (Vec3.Distance anchorPos candyPos / ((m + 1 : ℕ) : ℝ)))) ++
          [createRopeJoint (.seg (m + 1 - 1)) .candy
            (Vec3.Distance anchorPos candyPos / ((m + 1 : ℕ) : ℝ))]) := by
    simp only [createRope, ropeLoop_joints, ropeLoop_lastRef,
      List.range_succ_eq_map, List.map_cons, List.map_map, List.cons_append,
      Nat.add_sub_cancel]
    rw [List.cons.injEq]
    refine ⟨rfl, ?_⟩
    congr 1
    · apply List.map_congr_left
      intro j _
      simp [chainRef, Function.comp]
    · simp [chainRef]
  refine ⟨?_, hseg, ?_, hjoint, rfl⟩
  · rw [hseg]; simp
  · rw [hjoint]; simp

/-- Witness for `createRope_chain`: the rope created by `load()` at anchor
`(-4, 12, 0)` towards the candy at `(0, 8, 0)` with 8 segments. -/
theorem createRope_chain_witness :
    1 ≤ 8 ∧ (createRope ⟨-4, 12, 0⟩ ⟨0, 8, 0⟩ 8).segments.length = 8 :=
  ⟨by decide, (createRope_chain ⟨-4, 12, 0⟩ ⟨0, 8, 0⟩ 8 (by decide)).1⟩

/-- C3: every rope joint built by `createRopeJoint(aggA, aggB, distance)` is a
6-DoF constraint with `pivotA = (0, -distance/2, 0)`,
`pivotB = (0, distance/2, 0)`, main axes `Y` and perpendicular axes `X` on both
bodies, whose limited axes are exactly `LINEAR_X`, `LINEAR_Y`, `LINEAR_Z`, each
limited to `[-0.1, 0.1]`; the constraint is added from `aggA`'s body to
`aggB`'s body, and no angular axis is limited. -/
theorem createRopeJoint_configuration (aggA aggB : RopeBody) (distance : ℝ) :
    (createRopeJoint aggA aggB distance).bodyA = aggA ∧
    (createRopeJoint aggA aggB distance).bodyB = aggB ∧
    (createRopeJoint aggA aggB distance).pivotA = ⟨0, -distance / 2, 0⟩ ∧
    (createRopeJoint aggA aggB distance).pivotB = ⟨0, distance / 2, 0⟩ ∧
    (createRopeJoint aggA aggB distance).axisA = Vec3.axisY ∧
    (createRopeJoint aggA aggB distance).axisB = Vec3.axisY ∧
    (createRopeJoint aggA aggB distance).perpAxisA = Vec3.axisX ∧
    (createRopeJoint aggA aggB distance).perpAxisB = Vec3.axisX ∧
    (createRopeJoint aggA aggB distance).limits =
      [ ⟨.LINEAR_X, -0.1, 0.1⟩,
        ⟨.LINEAR_Y, -0.1, 0.1⟩,
        ⟨.LINEAR_Z, -0.1, 0.1⟩ ] ∧
    (createRopeJoint aggA aggB distance).limits.map AxisLimit.axis =
      [.LINEAR_X, .LINEAR_Y, .LINEAR_Z] ∧
    ConstraintAxis.ANGULAR_X ∉
      (createRopeJoint aggA aggB distance).limits.map AxisLimit.axis ∧
    ConstraintAxis.ANGULAR_Y ∉
      (createRopeJoint aggA aggB distance).limits.map AxisLimit.axis ∧
    ConstraintAxis.ANGULAR_Z ∉
      (createRopeJoint aggA aggB distance).limits.map AxisLimit.axis := by
  refine ⟨rfl, rfl, rfl, rfl, rfl, rfl, rfl, rfl, rfl, rfl, ?_, ?_, ?_⟩ <;>
    simp [createRopeJoint]

/-! ## CutTheRopeGame: mutable game state and per-frame loop

The scene-graph objects of `CutTheRopeGame` are reduced to the fields the
claims observe: disposal flags for rope meshes and the candy, bubble / blower /
star data, the candy's body state, and the `gameWon` / `starsCollected`
counters.  `mesh.dispose()` becomes setting a `disposed` flag. -/

/-- A star of `createStar`: mesh position, the `collected` flag of the `Star`
record, and whether `star.mesh` has been disposed (the collection animation
disposes it asynchronously). -/
structure StarM where
  pos : Vec3
  collected : Bool
  disposed : Bool

/-- A bubble of `createBubble`: mesh position, its `floatForce`, and whether
the mesh has been disposed (`popBubble` sets `isPopped` and disposes the mesh
together, so one flag models both). -/
structure BubbleM where
  pos : Vec3
  floatForce : ℝ
  disposed : Bool

/-- Source `createBubble(position)` pushes `{ mesh, aggregate, floatForce: 25,
attachedCandy: null }` with an un-popped mesh. -/
def mkBubble (position : Vec3) : BubbleM :=
  { pos := position, floatForce := 25, disposed := false }

/-- An air blower of `createAirBlower`: mesh position, normalized direction,
force, and range. -/
structure AirBlowerM where
  pos : Vec3
  direction : Vec3
  force : ℝ
  range : ℝ

/-- Source `createAirBlower(position, direction, force, range)` pushes
`{ mesh, direction: direction.normalize(), force, range }`. -/
def mkAirBlower (position direction : Vec3) (force range : ℝ) : AirBlowerM :=
  { pos := position, direction := direction.normalize, force := force,
    range := range }

/-- One rope as held in `this.ropes`: the anchor mesh's disposal flag and the
disposal flags of the segment meshes (segment `i` at list index `i`). -/
structure RopeState where
  anchorDisposed : Bool
  segs : List Bool
deriving DecidableEq

/-- The observable state of a `CutTheRopeGame` instance. -/
structure GameState where
  candyPos : Vec3
  candyVel : Vec3
  candyAngVel : Vec3
  candyDisposed : Bool
  ropes : List RopeState
  bubbles : List BubbleM
  blowers : List AirBlowerM
  stars : List StarM
  goalPos : Vec3
  gameWon : Bool
  starsCollected : ℕ

/-- Field `this.totalStars` (a constant of the class). -/
def totalStars : ℕ := 3

/-- Replace the element at index `k` by `f` of itself, leaving every other
index unchanged (the effect of mutating one object held in a JS array). -/
def modifyAt (f : α → α) : List α → ℕ → List α
  | [], _ => []
  | a :: rest, 0 => f a :: rest
  | a :: rest, k + 1 => a :: modifyAt f rest k

/-- Source `CutTheRopeGame.cutRope(segmentMesh)` reached from the pointer handler on
the segment of rope `r` with segment index `i` (the indices stored in the
picked mesh's metadata): the cut-particle burst is visual only, and
`segmentMesh.dispose()` disposes exactly that segment's mesh. -/
def cutRope (s : GameState) (r i : ℕ) : GameState :=
  { s with
    ropes := modifyAt
      (fun rope => { rope with segs := modifyAt (fun _ => true) rope.segs i })
      s.ropes r }

/-- Source `CutTheRopeGame.popBubble(bubbleMesh)` on bubble `j`: sets `isPopped` and
disposes the bubble mesh (one `disposed` flag models both). -/
def popBubble (s : GameState) (j : ℕ) : GameState :=
  { s with
    bubbles := modifyAt (fun b => { b with disposed := true }) s.bubbles j }

/-- What a `POINTERDOWN` pick can hit, as discriminated by the handler in
`CutTheRopeGame.setupInteraction`: a rope segment (the only meshes whose
metadata sets `isCuttable`), a bubble (metadata `type: 'bubble'`), or any
other mesh. -/
inductive CtrPick where
  | segPick (r i : ℕ)
  | bubblePick (j : ℕ)
  | otherPick

/-- The bubble branch of the pointer handler: a picked bubble that is not yet
popped is popped. -/
def ctrBubbleClick (s : GameState) (j : ℕ) : GameState :=
  match s.bubbles[j]? with
  | some b => if b.disposed then s else popBubble s j
  | none => s

/-- The `POINTERDOWN` branch of `CutTheRopeGame.setupInteraction`: a cuttable
mesh is cut; an un-popped bubble is popped. -/
def ctrPointerDown (s : GameState) : CtrPick → GameState
  | .segPick r i => cutRope s r i
  | .bubblePick j => ctrBubbleClick s j
  | .otherPick => s

/-- The disposal flag of segment `i` of rope `r` (false for out-of-range
indices). -/
def segDisposed (s : GameState) (r i : ℕ) : Bool :=
  match s.ropes[r]? with
  | some rope => (rope.segs[i]?).getD false
  | none => false

/-- The disposal flag of the anchor mesh of rope `r`. -/
def anchorDisposed (s : GameState) (r : ℕ) : Bool :=
  ((s.ropes[r]?).map RopeState.anchorDisposed).getD false

/-- Source `CutTheRopeGame.applyAirBlowerForces`, one frame: for each blower in
order, if the candy is strictly inside its range, apply the falloff-scaled
force at the candy's position. -/
def applyAirBlowerForces (candyPos : Vec3) : List AirBlowerM → List ForceEvent
  | [] => []
  | blower :: rest =>
      let distance := Vec3.Distance candyPos blower.pos
      if distance < blower.range then
        ⟨blower.direction.scale (blower.force * (1 - distance / blower.range)),
         candyPos⟩ :: applyAirBlowerForces candyPos rest
      else
        applyAirBlowerForces candyPos rest

/-- One iteration of the `applyBubbleForces` loop, acting on the candy's
current velocity and the force events emitted so far. -/
def bubbleIter (candyPos : Vec3) (acc : Vec3 × List ForceEvent)
    (bubble : BubbleM) : Vec3 × List ForceEvent :=
  if bubble.disposed then acc
  else
    let distance := Vec3.Distance candyPos bubble.pos
    if distance < 1.2 then
      let vel := acc.1
      (⟨vel.x * 0.98, vel.y, vel.z * 0.98⟩,
       acc.2 ++ [⟨⟨0, bubble.floatForce, 0⟩, candyPos⟩])
    else acc

/-- Source `CutTheRopeGame.applyBubbleForces`, one frame: fold `bubbleIter` over the
bubbles, returning the candy's final linear velocity and the emitted force
events. -/
def applyBubbleForces (candyPos candyVel : Vec3) (bubbles : List BubbleM) :
    Vec3 × List ForceEvent :=
  bubbles.foldl (bubbleIter candyPos) (candyVel, [])

/-- Source `CutTheRopeGame.checkStarCollection` (with the inlined effect of
`collectStar`): stars already collected or disposed are skipped; a star
strictly within distance 1.2 of the candy is marked collected and
`starsCollected` is incremented. -/
def checkStarCollection (candyPos : Vec3) :
    List StarM → ℕ → List StarM × ℕ
  | [], n => ([], n)
  | star :: rest, n =>
      if star.collected || star.disposed then
        let r := checkStarCollection candyPos rest n
        (star :: r.1, r.2)
      else
        let distance := Vec3.Distance candyPos star.pos
        if distance < 1.2 then
          let r := checkStarCollection candyPos rest (n + 1)
          ({ star with collected := true } :: r.1, r.2)
        else
          let r := checkStarCollection candyPos rest n
          (star :: r.1, r.2)

/-- One frame of the `registerBeforeRender` callback installed by
`CutTheRopeGame.setupGameLoop`: if the game is won, return immediately;
otherwise apply air-blower forces, apply bubble forces, check star collection,
and check the win condition (`winGame` sets `gameWon` and zeroes the candy's
linear and angular velocities; its animation is visual only).  Returns the new
state and the `applyForce` events of the frame. -/
def gameLoopStep (s : GameState) : GameState × List ForceEvent :=
  if s.gameWon then (s, [])
  else
    let blowEvents := applyAirBlowerForces s.candyPos s.blowers
    let bub := applyBubbleForces s.candyPos s.candyVel s.bubbles
    let starsR := checkStarCollection s.candyPos s.stars s.starsCollected
    let s1 : GameState :=
      { s with candyVel := bub.1, stars := starsR.1, starsCollected := starsR.2 }
    let s2 : GameState :=
      if Vec3.Distance s.candyPos s.goalPos < 2 then
        { s1 with gameWon := true, candyVel := Vec3.zero,
                  candyAngVel := Vec3.zero }
      else s1
    (s2, blowEvents ++ bub.2)

/-- The game-relevant part of `CutTheRopeGame.load()`: candy at `(0, 8, 0)`,
three ropes of 8, 10 and 12 segments, two bubbles, two air blowers, three
stars, goal at `(0, -8, 0)`, game not won, no star collected. -/
def initialState : GameState :=
  { candyPos := ⟨0, 8, 0⟩
    candyVel := Vec3.zero
    candyAngVel := Vec3.zero
    candyDisposed := false
    ropes :=
      [ ⟨false, List.replicate 8 false⟩,
        ⟨false, List.replicate 10 false⟩,
        ⟨false, List.replicate 12 false⟩ ]
    bubbles := [mkBubble ⟨-3, 4, 0⟩, mkBubble ⟨3, 2, 0⟩]
    blowers :=
      [ mkAirBlower ⟨-8, 0, 0⟩ ⟨1, 0.5, 0⟩ 15 8,
        mkAirBlower ⟨8, -2, 0⟩ ⟨-1, 0.3, 0⟩ 12 6 ]
    stars :=
      [ ⟨⟨-2, 6, 0⟩, false, false⟩,
        ⟨⟨2, 3, 0⟩, false, false⟩,
        ⟨⟨0, -2, 0⟩, false, false⟩ ]
    goalPos := ⟨0, -8, 0⟩
    gameWon := false
    starsCollected := 0 }

/-- The `initialState` with the game already won (for absorption arguments). -/
def wonState : GameState := { initialState with gameWon := true }

/-- The number of stars whose `collected` flag is true. -/
def countCollected (l : List StarM) : ℕ := l.countP (fun star => star.collected)

/-- The invariant of C10: `starsCollected` counts the collected stars and
there are `totalStars = 3` stars. -/
def starInvariant (s : GameState) : Prop :=
  s.starsCollected = countCollected s.stars ∧ s.stars.length = totalStars

/-! ## PhysicsModule: pointer interaction on the pendulum scene -/

/-- A mesh of the `PhysicsModule` scene: its `name`, absolute position, and
disposal flag. -/
structure PMMesh where
  name : String
  pos : Vec3
  disposed : Bool

/-- The pendulum-scene meshes held by the Babylon scene. -/
structure PMState where
  meshes : List PMMesh

/-- A call to `body.applyImpulse(impulse, point)` (the wrecking-ball push). -/
structure ImpulseEvent where
  impulse : Vec3
  point : Vec3

/-- The `POINTERDOWN` branch of `PhysicsModule.setupInteraction` on the picked
mesh at index `k`: a mesh whose name starts with `"link_"` is disposed; the
mesh named `"wreckingBall"` receives an impulse of 500 along the camera's
forward ray. -/
def pmPointerDown (s : PMState) (k : ℕ) (forward : Vec3) :
    PMState × List ImpulseEvent :=
  match s.meshes[k]? with
  | none => (s, [])
  | some m =>
      let cutState :=
        if m.name.startsWith ("link_") then
          { s with
            meshes :=
              modifyAt (fun mm => { mm with disposed := true }) s.meshes k }
        else s
      let impulses :=
        if m.name = "wreckingBall" then [⟨forward.scale 500, m.pos⟩] else []
      (cutState, impulses)

/-! ## List helper lemmas -/

theorem modifyAt_length (f : α → α) :
    ∀ (l : List α) (k : ℕ), (modifyAt f l k).length = l.length := by
  intro l
  induction l with
  | nil => intro k; cases k <;> rfl
  | cons a rest ih =>
      intro k
      cases k with
      | zero => rfl
      | succ k => simp [modifyAt, ih k]

theorem modifyAt_getElem_self (f : α → α) :
    ∀ (l : List α) (k : ℕ), (modifyAt f l k)[k]? = (l[k]?).map f := by
  intro l
  induction l with
  | nil => intro k; cases k <;> rfl
  | cons a rest ih =>
      intro k
      cases k with
      | zero => simp [modifyAt]
      | succ k => simpa [modifyAt] using ih k

theorem modifyAt_getElem_ne (f : α → α) :
    ∀ (l : List α) (k k' : ℕ), k ≠ k' →
      (modifyAt f l k)[k']? = l[k']? := by
  intro l
  induction l with
  | nil => intro k k' _; cases k <;> rfl
  | cons a rest ih =>
      intro k k' hne
      cases k with
      | zero =>
          cases k' with
          | zero => exact absurd rfl hne
          | succ k' => simp [modifyAt]
      | succ k =>
          cases k' with
          | zero => simp [modifyAt]
          | succ k' =>
              simpa [modifyAt] using ih k k' (fun he => hne (by rw [he]))

theorem checkStarCollection_length (candyPos : Vec3) :
    ∀ (l : List StarM) (n : ℕ),
      (checkStarCollection candyPos l n).1.length = l.length := by
  intro l
  induction l with
  | nil => intro n; simp [checkStarCollection]
  | cons star rest ih =>
      intro n
      simp only [checkStarCollection]
      split
      · simp [ih]
      · split <;> simp [ih]

theorem checkStarCollection_count (candyPos : Vec3) :
    ∀ (l : List StarM) (n : ℕ),
      (checkStarCollection candyPos l n).2 + countCollected l =
        n + countCollected (checkStarCollection candyPos l n).1 := by
  intro l
  induction l with
  | nil => intro n; simp [checkStarCollection, countCollected]
  | cons star rest ih =>
      intro n
      simp only [checkStarCollection]
      split
      next hc =>
        have h := ih n
        simp only [countCollected, List.countP_cons] at h ⊢
        omega
      next hc =>
        have hcol : star.collected = false := by
          cases hcol : star.collected
          · rfl
          · exact absurd (by simp [hcol]) hc
        split
        next hd =>
          have h := ih (n + 1)
          simp only [countCollected, List.countP_cons, hcol] at h ⊢
          simp only [cond_false, Bool.false_eq_true, if_false, if_true]
          omega
        next hd =>
          have h := ih n
          simp only [countCollected, List.countP_cons, hcol] at h ⊢
          omega

theorem checkStarCollection_collected_mono (candyPos : Vec3) :
    ∀ (l : List StarM) (n k : ℕ),
      (l[k]?).map StarM.collected = some true →
      (((checkStarCollection candyPos l n).1)[k]?).map StarM.collected =
        some true := by
  intro l
  induction l with
  | nil => intro n k h; simp at h
  | cons star rest ih =>
      intro n k h
      cases k with
      | zero =>
          simp only [List.getElem?_cons_zero, Option.map_some'] at h
          simp only [checkStarCollection]
          split
          · simpa using h
          · split <;> simp_all
      | succ k =>
          simp only [List.getElem?_cons_succ] at h
          simp only [checkStarCollection]
          split
          · simpa using ih n k h
          · split
            · simpa using ih (n + 1) k h
            · simpa using ih n k h

/-- The handler `ctrBubbleClick` never changes `gameWon`, the stars, or `starsCollected`. -/
theorem ctrBubbleClick_frame (s : GameState) (j : ℕ) :
    (ctrBubbleClick s j).gameWon = s.gameWon ∧
    (ctrBubbleClick s j).stars = s.stars ∧
    (ctrBubbleClick s j).starsCollected = s.starsCollected := by
  unfold ctrBubbleClick
  cases s.bubbles[j]? with
  | none => exact ⟨rfl, rfl, rfl⟩
  | some b =>
      by_cases hd : b.disposed = true <;> simp [hd, popBubble]

/-- The handler `ctrPointerDown` never changes `gameWon`, the stars, or `starsCollected`
(cutting and popping only touch rope / bubble meshes). -/
theorem ctrPointerDown_frame (s : GameState) (p : CtrPick) :
    (ctrPointerDown s p).gameWon = s.gameWon ∧
    (ctrPointerDown s p).stars = s.stars ∧
    (ctrPointerDown s p).starsCollected = s.starsCollected := by
  cases p with
  | segPick r i => exact ⟨rfl, rfl, rfl⟩
  | bubblePick j => exact ctrBubbleClick_frame s j
  | otherPick => exact ⟨rfl, rfl, rfl⟩

/-! ## Claim theorems on the game state -/

/-- C1: when a pointer-down pick hits a mesh whose metadata marks it cuttable
(`CutTheRopeGame`), or whose name starts with `"link_"` (`PhysicsModule`), the
cut operation disposes exactly that one picked mesh; every other rope segment
mesh, every anchor mesh, and the candy mesh remain undisposed, and the fields
`starsCollected` and `gameWon` are unchanged by the cut. -/
theorem cut_disposes_exactly_picked (s : GameState) (r i : ℕ)
    (rope : RopeState) (hr : s.ropes[r]? = some rope)
    (hi : i < rope.segs.length) :
    ctrPointerDown s (.segPick r i) = cutRope s r i ∧
    segDisposed (cutRope s r i) r i = true ∧
    (∀ r' i', ¬(r' = r ∧ i' = i) →
        segDisposed (cutRope s r i) r' i' = segDisposed s r' i') ∧
    (∀ r', anchorDisposed (cutRope s r i) r' = anchorDisposed s r') ∧
    (cutRope s r i).candyDisposed = s.candyDisposed ∧
    (cutRope s r i).starsCollected = s.starsCollected ∧
    (cutRope s r i).gameWon = s.gameWon ∧
    (∀ (p : PMState) (k : ℕ) (m : PMMesh) (forward : Vec3),
        p.meshes[k]? = some m → m.name.startsWith ("link_") = true →
        (pmPointerDown p k forward).1.meshes[k]? =
            some { m with disposed := true } ∧
        (∀ k', k' ≠ k →
            (pmPointerDown p k forward).1.meshes[k']? = p.meshes[k']?)) := by
  refine ⟨rfl, ?_, ?_, ?_, rfl, rfl, rfl, ?_⟩
  · simp only [segDisposed, cutRope, modifyAt_getElem_self, hr,
      Option.map_some', modifyAt_getElem_self, List.getElem?_eq_getElem hi]
    simp
  · intro r' i' hne
    by_cases hrr : r' = r
    · subst hrr
      have hii : i' ≠ i := fun he => hne ⟨rfl, he⟩
      simp only [segDisposed, cutRope, modifyAt_getElem_self, hr,
        Option.map_some']
      rw [modifyAt_getElem_ne _ _ _ _ (fun he => hii he.symm)]
    · simp only [segDisposed, cutRope]
      rw [modifyAt_getElem_ne _ _ _ _ (fun he => hrr he.symm)]
  · intro r'
    by_cases hrr : r' = r
    · subst hrr
      simp [anchorDisposed, cutRope, modifyAt_getElem_self, hr]
    · simp only [anchorDisposed, cutRope]
      rw [modifyAt_getElem_ne _ _ _ _ (fun he => hrr he.symm)]
  · intro p k m forward hk hlink
    refine ⟨?_, ?_⟩
    · simp only [pmPointerDown, hk, hlink, if_true, modifyAt_getElem_self,
        Option.map_some']
    · intro k' hk'
      simp only [pmPointerDown, hk, hlink, if_true]
      exact modifyAt_getElem_ne _ _ _ _ (fun he => hk' he.symm)

/-- Witness for `cut_disposes_exactly_picked`: cutting segment 0 of rope 0 of
the freshly loaded level. -/
theorem cut_disposes_exactly_picked_witness :
    initialState.ropes[0]? = some ⟨false, List.replicate 8 false⟩ ∧
    0 < (List.replicate 8 false).length ∧
    segDisposed (cutRope initialState 0 0) 0 0 = true :=
  ⟨rfl, by decide,
    (cut_disposes_exactly_picked initialState 0 0 ⟨false, List.replicate 8 false⟩
      rfl (by decide)).2.1⟩

/-- The per-blower force of the C4 claim, written from the claim's wording: a
blower strictly in range contributes the unit-direction force scaled by
`force * (1 - distance/range)` at the candy's position, an out-of-range blower
contributes nothing. -/
def airBlowerForceSpec (candyPos : Vec3) (blower : AirBlowerM) :
    Option ForceEvent :=
  if Vec3.Distance candyPos blower.pos < blower.range then
    some ⟨blower.direction.scale
            (blower.force *
              (1 - Vec3.Distance candyPos blower.pos / blower.range)),
          candyPos⟩
  else none

theorem applyAirBlowerForces_eq_filterMap (candyPos : Vec3) :
    ∀ blowers : List AirBlowerM,
      applyAirBlowerForces candyPos blowers =
        blowers.filterMap (airBlowerForceSpec candyPos) := by
  intro blowers
  induction blowers with
  | nil => rfl
  | cons blower rest ih =>
      simp only [applyAirBlowerForces, airBlowerForceSpec, List.filterMap_cons]
      split <;> simp [ih]

/-- C4: on every per-frame game-loop step in which the game is not yet won,
each air blower strictly within range of the candy applies the force
`direction * (force * (1 - distance/range))` at the candy's position, and each
blower at distance `≥ range` applies no force; the stored blower direction is
the normalized constructor argument. -/
theorem airBlower_forces (s : GameState) (h : s.gameWon = false) :
    (gameLoopStep s).2 =
      applyAirBlowerForces s.candyPos s.blowers ++
        (applyBubbleForces s.candyPos s.candyVel s.bubbles).2 ∧
    applyAirBlowerForces s.candyPos s.blowers =
      s.blowers.filterMap (airBlowerForceSpec s.candyPos) ∧
    (∀ b ∈ s.blowers, Vec3.Distance s.candyPos b.pos < b.range →
        airBlowerForceSpec s.candyPos b =
          some ⟨b.direction.scale
                  (b.force * (1 - Vec3.Distance s.candyPos b.pos / b.range)),
                s.candyPos⟩) ∧
    (∀ b ∈ s.blowers, b.range ≤ Vec3.Distance s.candyPos b.pos →
        airBlowerForceSpec s.candyPos b = none) ∧
    (∀ (p d : Vec3) (f r : ℝ), (mkAirBlower p d f r).direction = d.normalize ∧
        (mkAirBlower p d f r).force = f ∧ (mkAirBlower p d f r).range = r ∧
        (mkAirBlower p d f r).pos = p) := by
  refine ⟨by simp [gameLoopStep, h], applyAirBlowerForces_eq_filterMap _ _,
    ?_, ?_, fun p d f r => ⟨rfl, rfl, rfl, rfl⟩⟩
  · intro b _ hb
    simp [airBlowerForceSpec, hb]
  · intro b _ hb
    simp [airBlowerForceSpec, not_lt.mpr hb]

/-- Witness for `airBlower_forces`: the freshly loaded level is not won. -/
theorem airBlower_forces_witness :
    initialState.gameWon = false ∧
    (gameLoopStep initialState).2 =
      applyAirBlowerForces initialState.candyPos initialState.blowers ++
        (applyBubbleForces initialState.candyPos initialState.candyVel
          initialState.bubbles).2 :=
  ⟨rfl, (airBlower_forces initialState rfl).1⟩

/-- C5: on every per-frame game-loop step in which the game is not yet won,
each undisposed bubble strictly within distance 1.2 of the candy applies the
upward force `(0, floatForce, 0)` (with `floatForce = 25` as created) and
scales the x and z velocity components by 0.98 leaving y unchanged; disposed
bubbles contribute no force and no velocity change. -/
theorem bubble_forces (s : GameState) (h : s.gameWon = false) :
    (gameLoopStep s).2 =
      applyAirBlowerForces s.candyPos s.blowers ++
        (applyBubbleForces s.candyPos s.candyVel s.bubbles).2 ∧
    (∀ (b : BubbleM) (v : Vec3) (es : List ForceEvent), b.disposed = true →
        bubbleIter s.candyPos (v, es) b = (v, es)) ∧
    (∀ (b : BubbleM) (v : Vec3) (es : List ForceEvent), b.disposed = false →
        Vec3.Distance s.candyPos b.pos < 1.2 →
        bubbleIter s.candyPos (v, es) b =
          (⟨v.x * 0.98, v.y, v.z * 0.98⟩,
           es ++ [⟨⟨0, b.floatForce, 0⟩, s.candyPos⟩])) ∧
    (∀ (b : BubbleM) (v : Vec3) (es : List ForceEvent), b.disposed = false →
        (1.2 : ℝ) ≤ Vec3.Distance s.candyPos b.pos →
        bubbleIter s.candyPos (v, es) b = (v, es)) ∧
    (¬ Vec3.Distance s.candyPos s.goalPos < 2 →
        (gameLoopStep s).1.candyVel =
          (applyBubbleForces s.candyPos s.candyVel s.bubbles).1) ∧
    (∀ p : Vec3, (mkBubble p).floatForce = 25 ∧
        (mkBubble p).disposed = false ∧ (mkBubble p).pos = p) := by
  refine ⟨by simp [gameLoopStep, h], ?_, ?_, ?_, ?_,
    fun p => ⟨rfl, rfl, rfl⟩⟩
  · intro b v es hb
    simp [bubbleIter, hb]
  · intro b v es hb hd
    simp [bubbleIter, hb, hd]
  · intro b v es hb hd
    simp [bubbleIter, hb, not_lt.mpr hd]
  · intro hd
    simp [gameLoopStep, h, hd]

/-- Witness for `bubble_forces`: the freshly loaded level is not won. -/
theorem bubble_forces_witness :
    initialState.gameWon = false ∧
    (gameLoopStep initialState).2 =
      applyAirBlowerForces initialState.candyPos initialState.blowers ++
        (applyBubbleForces initialState.candyPos initialState.candyVel
          initialState.bubbles).2 :=
  ⟨rfl, (bubble_forces initialState rfl).1⟩

/-- C9: once `gameWon` is true it is never set back to false by any operation,
and every subsequent per-frame game-loop step returns the state unchanged with
no force applications (hence no star collection, no win check, no velocity
reset); `gameWon` becomes true on a not-yet-won frame in which the candy is
strictly within distance 2 of the goal. -/
theorem gameWon_absorbing (s : GameState) (h : s.gameWon = true) :
    gameLoopStep s = (s, []) ∧
    (∀ r i, (cutRope s r i).gameWon = true) ∧
    (∀ j, (popBubble s j).gameWon = true) ∧
    (∀ p, (ctrPointerDown s p).gameWon = true) ∧
    (∀ t : GameState, t.gameWon = true → (gameLoopStep t).1.gameWon = true) ∧
    (∀ t : GameState, t.gameWon = false →
        Vec3.Distance t.candyPos t.goalPos < 2 →
        (gameLoopStep t).1.gameWon = true ∧
        (gameLoopStep t).1.candyVel = Vec3.zero ∧
        (gameLoopStep t).1.candyAngVel = Vec3.zero) := by
  refine ⟨by simp [gameLoopStep, h], fun r i => h, fun j => h, ?_, ?_, ?_⟩
  · intro p
    rw [(ctrPointerDown_frame s p).1]
    exact h
  · intro t ht
    simp [gameLoopStep, ht]
  · intro t ht hd
    refine ⟨?_, ?_, ?_⟩ <;> simp [gameLoopStep, ht, hd]

/-- Witness for `gameWon_absorbing`: the loaded level with `gameWon` set. -/
theorem gameWon_absorbing_witness :
    wonState.gameWon = true ∧ gameLoopStep wonState = (wonState, []) :=
  ⟨rfl, (gameWon_absorbing wonState rfl).1⟩

/-- C10: every operation of `CutTheRopeGame` preserves the invariant that
`starsCollected` equals the number of stars whose `collected` flag is true and
that `starsCollected ≤ totalStars = 3`; a star already collected stays
collected (each star is collected at most once, because `checkStarCollection`
skips stars already marked collected or disposed); the invariant holds in the
freshly loaded level. -/
theorem starInvariant_preserved (s : GameState) (h : starInvariant s) :
    starInvariant (gameLoopStep s).1 ∧
    (gameLoopStep s).1.starsCollected ≤ totalStars ∧
    (∀ r i, starInvariant (cutRope s r i)) ∧
    (∀ j, starInvariant (popBubble s j)) ∧
    (∀ p, starInvariant (ctrPointerDown s p)) ∧
    (∀ k : ℕ, (s.stars[k]?).map StarM.collected = some true →
        ((gameLoopStep s).1.stars[k]?).map StarM.collected = some true) ∧
    starInvariant initialState := by
  have hinit : starInvariant initialState := by
    constructor <;> rfl
  by_cases hw : s.gameWon
  · have hstep : (gameLoopStep s).1 = s := by simp [gameLoopStep, hw]
    rw [hstep]
    refine ⟨h, ?_, fun r i => ?_, fun j => ?_, ?_, fun k hk => hk, hinit⟩
    · rw [h.1, ← h.2]; exact List.countP_le_length _
    · exact ⟨h.1, h.2⟩
    · exact ⟨h.1, h.2⟩
    · intro p
      have hf := ctrPointerDown_frame s p
      exact ⟨by rw [hf.2.2, hf.2.1]; exact h.1, by rw [hf.2.1]; exact h.2⟩
  · have hw' : s.gameWon = false := by simpa using hw
    have hstars : (gameLoopStep s).1.stars =
        (checkStarCollection s.candyPos s.stars s.starsCollected).1 := by
      simp only [gameLoopStep, hw', Bool.false_eq_true, if_false]
      split <;> rfl
    have hcount : (gameLoopStep s).1.starsCollected =
        (checkStarCollection s.candyPos s.stars s.starsCollected).2 := by
      simp only [gameLoopStep, hw', Bool.false_eq_true, if_false]
      split <;> rfl
    have hc := checkStarCollection_count s.candyPos s.stars s.starsCollected
    have hl := checkStarCollection_length s.candyPos s.stars s.starsCollected
    have h1 := h.1
    have hinv : starInvariant (gameLoopStep s).1 := by
      constructor
      · rw [hstars, hcount]; unfold countCollected at h1 hc ⊢; omega
      · rw [hstars, hl]; exact h.2
    refine ⟨hinv, ?_, fun r i => ⟨h.1, h.2⟩, fun j => ⟨h.1, h.2⟩, ?_, ?_, hinit⟩
    · rw [hinv.1, ← hinv.2]; exact List.countP_le_length _
    · intro p
      have hf := ctrPointerDown_frame s p
      exact ⟨by rw [hf.2.2, hf.2.1]; exact h.1, by rw [hf.2.1]; exact h.2⟩
    · intro k hk
      rw [hstars]
      exact checkStarCollection_collected_mono s.candyPos s.stars
        s.starsCollected k hk

/-- Witness for `starInvariant_preserved`: the invariant holds at load and is
preserved by one game-loop step. -/
theorem starInvariant_preserved_witness :
    starInvariant initialState ∧ starInvariant (gameLoopStep initialState).1 :=
  ⟨⟨rfl, rfl⟩, (starInvariant_preserved initialState ⟨rfl, rfl⟩).1⟩

/-! ## PhysicsModule: wrecking-ball pendulum -/

/-- The physics bodies of `PhysicsModule.createPendulum`: the static anchor,
the numbered chain links, and the wrecking ball. -/
inductive PendBody where
  | anchor
  | link (i : ℕ)
  | ball
deriving DecidableEq, Repr

/-- A `Physics6DoFConstraint` built by `PhysicsModule.createJoint`, with the
attachment direction (`aggA.body.addConstraint(aggB.body, joint)`). -/
structure PendJoint where
  bodyA : PendBody
  bodyB : PendBody
  pivotA : Vec3
  pivotB : Vec3
  axisA : Vec3
  axisB : Vec3
  perpAxisA : Vec3
  perpAxisB : Vec3
  limits : List AxisLimit

/-- Source `PhysicsModule.createJoint(aggA, aggB, pivotA, pivotB)`: the three linear
axes are locked to `[0, 0]`; the angular limits are left free ("Angular limits
free for rotation"). -/
def createJoint (aggA aggB : PendBody) (pivotA pivotB : Vec3) : PendJoint :=
  { bodyA := aggA
    bodyB := aggB
    pivotA := pivotA
    pivotB := pivotB
    axisA := Vec3.axisY
    axisB := Vec3.axisY
    perpAxisA := Vec3.axisX
    perpAxisB := Vec3.axisX
    limits :=
      [ ⟨.LINEAR_X, 0, 0⟩,
        ⟨.LINEAR_Y, 0, 0⟩,
        ⟨.LINEAR_Z, 0, 0⟩ ] }

/-- Constant `linkCount = 10` in `createPendulum`. -/
def linkCount : ℕ := 10

/-- Constant `linkDist = 0.8` in `createPendulum`. -/
def linkDist : ℝ := 0.8

/-- A chain link as created in the `createPendulum` loop. -/
structure ChainLinkM where
  pos : Vec3
  mass : ℝ

/-- The body the loop variable `previousAgg` points to after `j` links have
been chained, starting from `prev` at link index `i`. -/
def pendChainRef (prev : PendBody) (i : ℕ) : ℕ → PendBody
  | 0 => prev
  | j + 1 => .link (i + j)

/-- The `for(let i=0; i<linkCount; i++)` loop of `createPendulum`, with `k`
iterations remaining starting at link index `i`; carries `previousAgg` and its
mesh position (the ball is later placed relative to the last link). -/
def pendulumLoop (anchorPos : Vec3) :
    ℕ → ℕ → PendBody → Vec3 →
      List ChainLinkM × List PendJoint × PendBody × Vec3
  | _, 0, prev, prevPos => ([], [], prev, prevPos)
  | i, k + 1, prev, _ =>
      let linkPos := anchorPos + (⟨0, -(((i : ℝ) + 1) * linkDist), 0⟩ : Vec3)
      let rest := pendulumLoop anchorPos (i + 1) k (.link i) linkPos
      (⟨linkPos, 1⟩ :: rest.1,
       createJoint prev (.link i) ⟨0, -(linkDist / 2), 0⟩
           ⟨0, linkDist / 2, 0⟩ :: rest.2.1,
       rest.2.2)

/-- Result of `PhysicsModule.createPendulum`. -/
structure PendulumResult where
  anchorMass : ℝ
  links : List ChainLinkM
  ballPos : Vec3
  ballMass : ℝ
  joints : List PendJoint

/-- Source `PhysicsModule.createPendulum(anchorPos)`: static anchor (mass 0), 10 chain
links (mass 1) hanging below the anchor, a wrecking ball (mass 50) below the
last link, joined consecutively with `createJoint`. -/
def createPendulum (anchorPos : Vec3) : PendulumResult :=
  let loop := pendulumLoop anchorPos 0 linkCount .anchor anchorPos
  { anchorMass := 0
    links := loop.1
    ballPos := loop.2.2.2 + (⟨0, -2, 0⟩ : Vec3)
    ballMass := 50
    joints := loop.2.1 ++
      [createJoint loop.2.2.1 .ball ⟨0, -(linkDist / 2), 0⟩ ⟨0, 1.5, 0⟩] }

theorem pendChainRef_succ_shift (prev : PendBody) (i j : ℕ) :
    pendChainRef (.link i) (i + 1) j = pendChainRef prev i (j + 1) := by
  cases j with
  | zero => simp [pendChainRef]
  | succ j => simp only [pendChainRef]; congr 1; omega

theorem pendulumLoop_links (anchorPos : Vec3) :
    ∀ (k i : ℕ) (prev : PendBody) (prevPos : Vec3),
      (pendulumLoop anchorPos i k prev prevPos).1 =
        (List.range k).map
          (fun j =>
            ⟨anchorPos +
                (⟨0, -((((i + j : ℕ) : ℝ) + 1) * linkDist), 0⟩ : Vec3), 1⟩) := by
  intro k
  induction k with
  | zero => intro i prev prevPos; simp [pendulumLoop]
  | succ k ih =>
      intro i prev prevPos
      simp only [pendulumLoop, ih (i + 1), List.range_succ_eq_map,
        List.map_cons, List.map_map]
      rw [List.cons.injEq]
      refine ⟨rfl, ?_⟩
      apply List.map_congr_left
      intro j _
      simp only [Function.comp, Nat.succ_eq_add_one]
      rw [show i + 1 + j = i + (j + 1) by omega]

theorem pendulumLoop_joints (anchorPos : Vec3) :
    ∀ (k i : ℕ) (prev : PendBody) (prevPos : Vec3),
      (pendulumLoop anchorPos i k prev prevPos).2.1 =
        (List.range k).map
          (fun j => createJoint (pendChainRef prev i j) (.link (i + j))
            ⟨0, -(linkDist / 2), 0⟩ ⟨0, linkDist / 2, 0⟩) := by
  intro k
  induction k with
  | zero => intro i prev prevPos; simp [pendulumLoop]
  | succ k ih =>
      intro i prev prevPos
      simp only [pendulumLoop, ih (i + 1), List.range_succ_eq_map,
        List.map_cons, List.map_map]
      rw [List.cons.injEq]
      refine ⟨by simp [pendChainRef], ?_⟩
      apply List.map_congr_left
      intro j _
      simp only [Function.comp, Nat.succ_eq_add_one]
      rw [pendChainRef_succ_shift prev, show i + 1 + j = i + (j + 1) by omega]

theorem pendulumLoop_lastRef (anchorPos : Vec3) :
    ∀ (k i : ℕ) (prev : PendBody) (prevPos : Vec3),
      (pendulumLoop anchorPos i k prev prevPos).2.2.1 =
        pendChainRef prev i k := by
  intro k
  induction k with
  | zero => intro i prev prevPos; simp [pendulumLoop, pendChainRef]
  | succ k ih =>
      intro i prev prevPos
      simp only [pendulumLoop, ih (i + 1)]
      exact pendChainRef_succ_shift prev i k

/-- C6: `createPendulum(anchorPos)` creates a static anchor (mass 0), exactly
10 chain links (mass 1) with link `i` positioned at
`anchorPos + (0, -(i+1)*0.8, 0)`, and a wrecking ball (mass 50), joined
consecutively anchor-to-link-0, link-`i`-to-link-`(i+1)`, last-link-to-ball,
where every joint locks all three linear axes (min and max limits both 0) and
leaves every angular axis unlimited. -/
theorem createPendulum_chain (anchorPos : Vec3) :
    (createPendulum anchorPos).links.length = 10 ∧
    (createPendulum anchorPos).links =
      (List.range 10).map
        (fun i =>
          ⟨anchorPos + (⟨0, -(((i : ℝ) + 1) * 0.8), 0⟩ : Vec3), 1⟩) ∧
    (createPendulum anchorPos).anchorMass = 0 ∧
    (createPendulum anchorPos).ballMass = 50 ∧
    (createPendulum anchorPos).joints.length = 11 ∧
    (createPendulum anchorPos).joints =
      createJoint .anchor (.link 0) ⟨0, -(0.8 / 2), 0⟩ ⟨0, 0.8 / 2, 0⟩ ::
        (((List.range 9).map
            (fun i => createJoint (.link i) (.link (i + 1))
              ⟨0, -(0.8 / 2), 0⟩ ⟨0, 0.8 / 2, 0⟩)) ++
          [createJoint (.link 9) .ball ⟨0, -(0.8 / 2), 0⟩ ⟨0, 1.5, 0⟩]) ∧
    (createPendulum anchorPos).joints.map PendJoint.limits =
      List.replicate 11
        [ (⟨.LINEAR_X, 0, 0⟩ : AxisLimit),
          ⟨.LINEAR_Y, 0, 0⟩,
          ⟨.LINEAR_Z, 0, 0⟩ ] ∧
    ([ (⟨.LINEAR_X, 0, 0⟩ : AxisLimit),
       ⟨.LINEAR_Y, 0, 0⟩,
       ⟨.LINEAR_Z, 0, 0⟩ ].map AxisLimit.axis =
      [.LINEAR_X, .LINEAR_Y, .LINEAR_Z]) ∧
    ConstraintAxis.ANGULAR_X ∉
      ([.LINEAR_X, .LINEAR_Y, .LINEAR_Z] : List ConstraintAxis) ∧
    ConstraintAxis.ANGULAR_Y ∉
      ([.LINEAR_X, .LINEAR_Y, .LINEAR_Z] : List ConstraintAxis) ∧
    ConstraintAxis.ANGULAR_Z ∉
      ([.LINEAR_X, .LINEAR_Y, .LINEAR_Z] : List ConstraintAxis) := by
  have hlink : (createPendulum anchorPos).links =
      (List.range 10).map
        (fun i =>
          ⟨anchorPos + (⟨0, -(((i : ℝ) + 1) * 0.8), 0⟩ : Vec3), 1⟩) := by
    simp only [createPendulum, linkCount, pendulumLoop_links]
    apply List.map_congr_left
    intro j _
    simp [linkDist]
  have hjoint : (createPendulum anchorPos).joints =
      createJoint .anchor (.link 0) ⟨0, -(0.8 / 2), 0⟩ ⟨0, 0.8 / 2, 0⟩ ::
        (((List.range 9).map
            (fun i => createJoint (.link i) (.link (i + 1))
              ⟨0, -(0.8 / 2), 0⟩ ⟨0, 0.8 / 2, 0⟩)) ++
          [createJoint (.link 9) .ball ⟨0, -(0.8 / 2), 0⟩ ⟨0, 1.5, 0⟩]) := by
    simp only [createPendulum, linkCount, pendulumLoop_joints,
      pendulumLoop_lastRef]
    rw [show (10 : ℕ) = 9 + 1 from rfl, List.range_succ_eq_map]
    simp only [List.map_cons, List.map_map, List.cons_append]
    rw [List.cons.injEq]
    refine ⟨by simp [pendChainRef, linkDist], ?_⟩
    congr 1
  refine ⟨?_, hlink, rfl, rfl, ?_, hjoint, ?_, by decide, by decide, by decide,
    by decide⟩
  · rw [hlink]; simp
  · rw [hjoint]; simp
  · rw [hjoint]
    simp only [List.map_cons, List.map_append, List.map_map, createJoint,
      Function.comp, List.map_singleton]
    rw [show (11 : ℕ) = 10 + 1 from rfl, List.replicate_succ,
      show (10 : ℕ) = 9 + 1 from rfl, List.replicate_succ']
    rw [List.cons.injEq]
    refine ⟨rfl, ?_⟩
    congr 1

/-! ## Vehicle -/

/-- The weld `Physics6DoFConstraint` of `Vehicle.createWheel`, attached from
the chassis body (`this.chassisAggregate!.body.addConstraint(wheelAgg.body,
weld)`) to the wheel body. -/
structure WheelJoint where
  bodyA : String
  bodyB : String
  pivotA : Vec3
  pivotB : Vec3
  axisA : Vec3
  axisB : Vec3
  perpAxisA : Vec3
  perpAxisB : Vec3
  limits : List AxisLimit

/-- A wheel of `Vehicle.createWheel(position, name)`: its name, the offset
argument, the wheel mesh position (`chassis.position.add(position)`), the
wheel aggregate's mass, and the weld constraint. -/
structure WheelM where
  name : String
  offset : Vec3
  pos : Vec3
  mass : ℝ
  weld : WheelJoint

/-- Field `this.vehicleMass = 200`. -/
def vehicleMass : ℝ := 200

/-- Field `this.wheelMass = 20`. -/
def wheelMass : ℝ := 20

/-- The chassis position set in the `Vehicle` constructor
(`CreateBox` at the origin, then `this.chassis.position.y = 3`). -/
def chassisStartPos : Vec3 := ⟨0, 3, 0⟩

/-- Source `Vehicle.createWheel(position, name)`: cylinder wheel at
`chassis.position + position` with mass `wheelMass`, welded to the chassis by
a 6-DoF constraint locking linear X/Y/Z and angular Y/Z (only rotation about X
left unconstrained). -/
def createWheel (chassisPos position : Vec3) (name : String) : WheelM :=
  { name := name
    offset := position
    pos := chassisPos + position
    mass := wheelMass
    weld :=
      { bodyA := "chassis"
        bodyB := name
        pivotA := position
        pivotB := Vec3.zero
        axisA := Vec3.axisX
        axisB := Vec3.axisX
        perpAxisA := Vec3.axisY
        perpAxisB := Vec3.axisY
        limits :=
          [ ⟨.LINEAR_X, 0, 0⟩,
            ⟨.LINEAR_Y, 0, 0⟩,
            ⟨.LINEAR_Z, 0, 0⟩,
            ⟨.ANGULAR_Y, 0, 0⟩,
            ⟨.ANGULAR_Z, 0, 0⟩ ] } }

/-- Result of `Vehicle.build()`. -/
structure VehicleResult where
  chassisMass : ℝ
  wheels : List WheelM

/-- Source `Vehicle.build()`: chassis aggregate of mass `vehicleMass`, then the four
wheels FL, FR, RL, RR at offsets `(±1.2, -0.5, ±1.5)`. -/
def vehicleBuild : VehicleResult :=
  { chassisMass := vehicleMass
    wheels :=
      [ createWheel chassisStartPos ⟨-1.2, -0.5, 1.5⟩ ("wheel_FL"),
        createWheel chassisStartPos ⟨1.2, -0.5, 1.5⟩ ("wheel_FR"),
        createWheel chassisStartPos ⟨-1.2, -0.5, -1.5⟩ ("wheel_RL"),
        createWheel chassisStartPos ⟨1.2, -0.5, -1.5⟩ ("wheel_RR") ] }

/-- C7: `Vehicle.build()` creates one chassis body of mass 200 and exactly
four wheel bodies of mass 20 at offsets `(±1.2, -0.5, ±1.5)` from the chassis,
and attaches each wheel to the chassis with a 6-DoF weld constraint whose
limited axes are exactly linear X, linear Y, linear Z, angular Y and angular
Z, each with min and max limits 0 (only rotation about X left
unconstrained). -/
theorem vehicleBuild_welds :
    vehicleBuild.chassisMass = 200 ∧
    vehicleBuild.wheels.length = 4 ∧
    vehicleBuild.wheels.map WheelM.offset =
      [ (⟨-1.2, -0.5, 1.5⟩ : Vec3), ⟨1.2, -0.5, 1.5⟩,
        ⟨-1.2, -0.5, -1.5⟩, ⟨1.2, -0.5, -1.5⟩ ] ∧
    vehicleBuild.wheels.map WheelM.pos =
      [ chassisStartPos + (⟨-1.2, -0.5, 1.5⟩ : Vec3),
        chassisStartPos + (⟨1.2, -0.5, 1.5⟩ : Vec3),
        chassisStartPos + (⟨-1.2, -0.5, -1.5⟩ : Vec3),
        chassisStartPos + (⟨1.2, -0.5, -1.5⟩ : Vec3) ] ∧
    vehicleBuild.wheels.map WheelM.mass = List.replicate 4 20 ∧
    vehicleBuild.wheels.map (fun w => w.weld.limits) =
      List.replicate 4
        [ (⟨.LINEAR_X, 0, 0⟩ : AxisLimit), ⟨.LINEAR_Y, 0, 0⟩,
          ⟨.LINEAR_Z, 0, 0⟩, ⟨.ANGULAR_Y, 0, 0⟩, ⟨.ANGULAR_Z, 0, 0⟩ ] ∧
    vehicleBuild.wheels.map (fun w => w.weld.limits.map AxisLimit.axis) =
      List.replicate 4
        [.LINEAR_X, .LINEAR_Y, .LINEAR_Z, .ANGULAR_Y, .ANGULAR_Z] ∧
    vehicleBuild.wheels.map (fun w => w.weld.bodyA) =
      List.replicate 4 "chassis" ∧
    vehicleBuild.wheels.map (fun w => w.weld.bodyB) =
      ["wheel_FL", "wheel_FR", "wheel_RL", "wheel_RR"] ∧
    ConstraintAxis.ANGULAR_X ∉
      ([.LINEAR_X, .LINEAR_Y, .LINEAR_Z, .ANGULAR_Y, .ANGULAR_Z] :
        List ConstraintAxis) :=
  ⟨rfl, rfl, rfl, rfl, rfl, rfl, rfl, rfl, rfl, by decide⟩

end

end Nexus
